import Mathlib

/-!
Verification development for the meds-market-flow repository.

The definitions below are shallow embeddings of the application code:
the cart operations of `src/hooks/useCart.tsx`, the checkout procedure
`handleCheckout` of the cart page, the delivery-status and confirmation
operations of the delivery dashboard and the admin deliveries page, the
role-resolution hook `useUserRole`, and the product row-level
authorization predicate of the schema migration. Prices are modelled as
exact rationals (the schema's DECIMAL(10,2)), timestamps as naturals,
database ids as strings, and fallible queries as `Except`/`Option`.
-/

namespace MedsMarket

/-- A cart line as held by `useCart.tsx` (`CartItem`): a product
reference with its snapshot price, a quantity, and the owning pharmacy. -/
structure CartItem where
  product_id : String
  name : String
  price : ℚ
  quantity : Int
  pharmacy_name : String
  pharmacy_id : String
  deriving Repr, DecidableEq

/-- The cart payload passed to `addToCart` (a `CartItem` without a
quantity, cf. `Omit<CartItem, 'quantity'>`). -/
structure NewCartItem where
  product_id : String
  name : String
  price : ℚ
  pharmacy_name : String
  pharmacy_id : String
  deriving Repr, DecidableEq

/-- `addToCart` of `useCart.tsx`: if a line with the same `product_id`
exists, increment the quantity of every line with that id by one;
otherwise append a fresh line with quantity 1. -/
def addToCart (newItem : NewCartItem) (current : List CartItem) : List CartItem :=
  if current.any (fun item => item.product_id = newItem.product_id) then
    current.map (fun item =>
      if item.product_id = newItem.product_id then
        { item with quantity := item.quantity + 1 }
      else item)
  else
    current ++ [{ product_id := newItem.product_id, name := newItem.name,
                  price := newItem.price, quantity := 1,
                  pharmacy_name := newItem.pharmacy_name,
                  pharmacy_id := newItem.pharmacy_id }]

/-- `removeFromCart` of `useCart.tsx`: drop every line with the given
`product_id`. -/
def removeFromCart (productId : String) (current : List CartItem) : List CartItem :=
  current.filter (fun item => item.product_id ≠ productId)

/-- `updateQuantity` of `useCart.tsx`: a non-positive quantity removes
the line, otherwise the line's quantity is overwritten. -/
def updateQuantity (productId : String) (quantity : Int) (current : List CartItem) :
    List CartItem :=
  if quantity ≤ 0 then
    removeFromCart productId current
  else
    current.map (fun item =>
      if item.product_id = productId then { item with quantity := quantity } else item)

/-- Cart well-formedness: no two lines share a `product_id` and every
line has a positive quantity. -/
def CartWF (cart : List CartItem) : Prop :=
  (cart.map (fun item => item.product_id)).Nodup ∧
    ∀ item ∈ cart, 1 ≤ item.quantity

instance (cart : List CartItem) : Decidable (CartWF cart) := by
  unfold CartWF; infer_instance

lemma keys_map_preserve (g : CartItem → CartItem)
    (hg : ∀ i, (g i).product_id = i.product_id) (cart : List CartItem) :
    (cart.map g).map (fun item => item.product_id) =
      cart.map (fun item => item.product_id) := by
  rw [List.map_map]
  exact List.map_congr_left (fun a _ => hg a)

lemma addToCart_wf {cart : List CartItem} (h : CartWF cart) (x : NewCartItem) :
    CartWF (addToCart x cart) := by
  obtain ⟨hnd, hq⟩ := h
  unfold addToCart
  by_cases hmem : (cart.any fun item => item.product_id = x.product_id) = true
  · rw [if_pos hmem]
    constructor
    · rw [keys_map_preserve _ ?hpres]
      case hpres =>
        intro i
        by_cases h : i.product_id = x.product_id <;> simp [h]
      exact hnd
    · intro item hitem
      rcases List.mem_map.mp hitem with ⟨y, hy, rfl⟩
      have hqy := hq y hy
      by_cases h : y.product_id = x.product_id <;> simp [h] <;> omega
  · rw [if_neg hmem]
    constructor
    · rw [List.map_append]
      simp only [List.map_cons, List.map_nil]
      rw [List.nodup_append]
      refine ⟨hnd, List.nodup_singleton _, ?_⟩
      intro a ha hb
      simp only [List.mem_singleton] at hb
      subst hb
      rcases List.mem_map.mp ha with ⟨y, hy, hyid⟩
      simp only [List.any_eq_true, decide_eq_true_eq] at hmem
      exact hmem ⟨y, hy, hyid⟩
    · intro item hitem
      rcases List.mem_append.mp hitem with hin | hin
      · exact hq item hin
      · simp only [List.mem_singleton] at hin
        subst hin; norm_num

lemma removeFromCart_wf {cart : List CartItem} (h : CartWF cart) (pid : String) :
    CartWF (removeFromCart pid cart) := by
  obtain ⟨hnd, hq⟩ := h
  constructor
  · exact hnd.sublist (((List.filter_sublist _)).map _)
  · intro item hitem
    exact hq item (List.mem_of_mem_filter hitem)

lemma updateQuantity_wf {cart : List CartItem} (h : CartWF cart)
    (pid : String) (q : Int) : CartWF (updateQuantity pid q cart) := by
  unfold updateQuantity
  by_cases hle : q ≤ 0
  · rw [if_pos hle]
    exact removeFromCart_wf h pid
  · rw [if_neg hle]
    obtain ⟨hnd, hq⟩ := h
    constructor
    · rw [keys_map_preserve _ ?hpres]
      case hpres =>
        intro i
        by_cases h : i.product_id = pid <;> simp [h]
      exact hnd
    · intro item hitem
      rcases List.mem_map.mp hitem with ⟨y, hy, rfl⟩
      have hqy := hq y hy
      by_cases h : y.product_id = pid <;> simp [h] <;> omega

/-- Order status enum of the schema (`order_status`). -/
inductive OrderStatus where
  | pending | approved | processing | shipped | delivered | cancelled
  deriving Repr, DecidableEq

/-- An `orders` row as written by `handleCheckout` in the cart page. -/
structure Order where
  id : Nat
  customer_id : String
  pharmacy_id : String
  total_amount : ℚ
  delivery_address : String
  notes : String
  status : OrderStatus
  deriving Repr, DecidableEq

/-- An `order_items` row as written by `handleCheckout`. -/
structure OrderItem where
  order_id : Nat
  product_id : String
  quantity : Int
  unit_price : ℚ
  total_price : ℚ
  deriving Repr, DecidableEq

/-- First-occurrence deduplication, modelling the key order of the
JavaScript object built by `items.reduce` (insertion order of first
occurrences, as iterated by `Object.entries`). -/
def dedupFirst : List String → List String
  | [] => []
  | x :: xs => x :: (dedupFirst xs).filter (fun y => y ≠ x)

/-- The items of one pharmacy partition (`itemsByPharmacy[pid]`). -/
def itemsFor (pid : String) (items : List CartItem) : List CartItem :=
  items.filter (fun i => i.pharmacy_id = pid)

/-- The per-partition order total computed by `handleCheckout`:
`pharmacyItems.reduce((sum, item) => sum + item.price * item.quantity, 0)`. -/
def orderTotal (its : List CartItem) : ℚ :=
  (its.map (fun i => i.price * (i.quantity : ℚ))).sum

/-- The order-item row built by `handleCheckout` for one cart item of an
order with the given id. -/
def mkOrderItem (oid : Nat) (i : CartItem) : OrderItem :=
  { order_id := oid, product_id := i.product_id, quantity := i.quantity,
    unit_price := i.price, total_price := i.price * (i.quantity : ℚ) }

/-- The loop body of `handleCheckout` over the pharmacy partitions:
each partition yields one order header (status `pending`, total equal
to the partition total) together with its order-item rows. Order ids
are the ones the store assigns on insert, modelled as consecutive
naturals from `nid`. -/
def makeOrders (uid addr notes : String) (items : List CartItem) :
    List String → Nat → List (Order × List OrderItem)
  | [], _ => []
  | p :: rest, nid =>
      ({ id := nid, customer_id := uid, pharmacy_id := p,
         total_amount := orderTotal (itemsFor p items),
         delivery_address := addr, notes := notes, status := .pending },
       (itemsFor p items).map (mkOrderItem nid)) ::
        makeOrders uid addr notes items rest (nid + 1)

/-- JavaScript `String.prototype.trim`: strip leading and trailing
whitespace. -/
def strTrim (s : String) : String :=
  String.mk (((s.data.dropWhile Char.isWhitespace).reverse.dropWhile
    Char.isWhitespace).reverse)

/-- `handleCheckout` of the cart page: bail out when there is no user,
the cart is empty, or the trimmed delivery address is blank; otherwise
create one order per distinct `pharmacy_id` of the cart. -/
def handleCheckout (user : Option String) (deliveryAddress notes : String)
    (items : List CartItem) (nid : Nat) : List (Order × List OrderItem) :=
  match user with
  | none => []
  | some uid =>
      if items.isEmpty then []
      else if strTrim deliveryAddress = "" then []
      else makeOrders uid deliveryAddress notes items
        (dedupFirst (items.map (fun i => i.pharmacy_id))) nid

lemma dedupFirst_nodup (l : List String) : (dedupFirst l).Nodup := by
  induction l with
  | nil => simp [dedupFirst]
  | cons x xs ih =>
      simp only [dedupFirst, List.nodup_cons]
      constructor
      · intro hx
        have := List.of_mem_filter hx
        simp at this
      · exact ih.filter _

lemma mem_dedupFirst {l : List String} {p : String} :
    p ∈ dedupFirst l ↔ p ∈ l := by
  induction l with
  | nil => simp [dedupFirst]
  | cons x xs ih =>
      simp only [dedupFirst, List.mem_cons]
      constructor
      · rintro (rfl | hp)
        · exact Or.inl rfl
        · exact Or.inr (ih.mp (List.mem_of_mem_filter hp))
      · rintro (rfl | hp)
        · exact Or.inl rfl
        · by_cases hpx : p = x
          · exact Or.inl hpx
          · exact Or.inr (List.mem_filter.mpr ⟨ih.mpr hp, by simp [hpx]⟩)

lemma makeOrders_keys (uid addr notes : String) (items : List CartItem)
    (pids : List String) (nid : Nat) :
    (makeOrders uid addr notes items pids nid).map
        (fun x => x.1.pharmacy_id) = pids := by
  induction pids generalizing nid with
  | nil => simp [makeOrders]
  | cons p rest ih => simp [makeOrders, ih]

lemma makeOrders_mem (uid addr notes : String) (items : List CartItem)
    (pids : List String) (nid : Nat) :
    ∀ x ∈ makeOrders uid addr notes items pids nid,
      x.1.status = .pending ∧
      x.1.customer_id = uid ∧
      x.1.delivery_address = addr ∧
      x.1.total_amount = orderTotal (itemsFor x.1.pharmacy_id items) ∧
      x.2 = (itemsFor x.1.pharmacy_id items).map (mkOrderItem x.1.id) := by
  induction pids generalizing nid with
  | nil => intro x hx; simp [makeOrders] at hx
  | cons p rest ih =>
      intro x hx
      simp only [makeOrders, List.mem_cons] at hx
      rcases hx with rfl | hx
      · exact ⟨rfl, rfl, rfl, rfl, rfl⟩
      · exact ih (nid + 1) x hx

lemma orderTotal_eq_sum_total_price (pid : String) (items : List CartItem)
    (oid : Nat) :
    orderTotal (itemsFor pid items) =
      (((itemsFor pid items).map (mkOrderItem oid)).map
        (fun oi => oi.total_price)).sum := by
  simp only [orderTotal, List.map_map]
  congr 1

/-- A `products` row (schema migration, `public.products`): the fields
relevant to checkout and authorization. -/
structure Product where
  id : String
  pharmacy_id : String
  name : String
  price : ℚ
  stock_quantity : Int
  is_active : Bool
  deriving Repr, DecidableEq

/-- The slice of the relational store touched by checkout: the
`orders`, `order_items` and `products` tables, plus the id counter the
store uses for freshly inserted orders. -/
structure DB where
  orders : List Order
  order_items : List OrderItem
  products : List Product
  nextId : Nat
  deriving Repr, DecidableEq

/-- The store-level effect of a fully successful `handleCheckout` run:
the created orders and order items are appended to their tables. No
other table is written by the checkout code. -/
def handleCheckoutDB (user : Option String) (deliveryAddress notes : String)
    (items : List CartItem) (db : DB) : DB :=
  let created := handleCheckout user deliveryAddress notes items db.nextId
  { db with
      orders := db.orders ++ created.map Prod.fst,
      order_items := db.order_items ++ (created.map Prod.snd).flatten,
      nextId := db.nextId + created.length }

/-- The order header inserted for the partition of pharmacy `p`. -/
def mkOrder (nid : Nat) (uid p addr notes : String) (items : List CartItem) : Order :=
  { id := nid, customer_id := uid, pharmacy_id := p,
    total_amount := orderTotal (itemsFor p items),
    delivery_address := addr, notes := notes, status := .pending }

/-- The checkout loop with fallible inserts: `ok` tells, per insert
call (counted by `k`), whether the store accepts it. Each partition
issues two independent inserts — first the order header, then its order
items; a thrown error leaves the loop (the `catch` only shows a toast),
so the writes already performed stay in place. -/
def runCheckoutAux (uid addr notes : String) (items : List CartItem) (ok : Nat → Bool) :
    List String → DB → Nat → DB
  | [], db, _ => db
  | p :: rest, db, k =>
      if ok k then
        let o := mkOrder db.nextId uid p addr notes items
        let db1 := { db with orders := db.orders ++ [o], nextId := db.nextId + 1 }
        if ok (k + 1) then
          runCheckoutAux uid addr notes items ok rest
            { db1 with
                order_items := db1.order_items ++ (itemsFor p items).map (mkOrderItem o.id) }
            (k + 2)
        else db1
      else db

/-- `handleCheckout` against the store with fallible inserts. -/
def runCheckout (user : Option String) (deliveryAddress notes : String)
    (items : List CartItem) (ok : Nat → Bool) (db : DB) : DB :=
  match user with
  | none => db
  | some uid =>
      if items.isEmpty then db
      else if strTrim deliveryAddress = "" then db
      else runCheckoutAux uid deliveryAddress notes items ok
        (dedupFirst (items.map (fun i => i.pharmacy_id))) db 0

/-- Delivery status enum (`status_delivery`). -/
inductive DeliveryStatus where
  | pending | inTransit | delivered
  deriving Repr, DecidableEq

/-- A `deliveries` row as manipulated by the delivery dashboard and the
admin deliveries page. Timestamps are naturals; an unassigned agent and
an unset `delivered_at` are `none`. -/
structure Delivery where
  id : String
  order_id : String
  pharmacy_id : String
  delivery_agent_id : Option String
  status_delivery : DeliveryStatus
  confirmed_by_admin : Bool
  confirmed_by_pharmacy : Bool
  delivered_at : Option Nat
  deriving Repr, DecidableEq

/-- The row update performed by `updateDeliveryStatus` (identical code
in the delivery agent's dashboard and in the admin deliveries page):
`status_delivery` is overwritten, and `delivered_at` is stamped with
the current time exactly when the new status is `delivered` — it is
left untouched otherwise. -/
def updateDeliveryRow (d : Delivery) (st : DeliveryStatus) (now : Nat) : Delivery :=
  { d with
      status_delivery := st,
      delivered_at := if st = .delivered then some now else d.delivered_at }

/-- `updateDeliveryStatus` applied to the deliveries table: the row with
the given id is updated, all others are unchanged. -/
def updateDeliveryStatus (did : String) (st : DeliveryStatus) (now : Nat)
    (ds : List Delivery) : List Delivery :=
  ds.map (fun d => if d.id = did then updateDeliveryRow d st now else d)

/-- The row update of the admin's `confirmDelivery(deliveryId, 'admin')`:
only `confirmed_by_admin` is set. -/
def rowConfirmAdmin (did : String) (d : Delivery) : Delivery :=
  if d.id = did then { d with confirmed_by_admin := true } else d

/-- The row update of the pharmacy's `confirmDelivery` (and of the
admin's `confirmDelivery(deliveryId, 'pharmacy')`): only
`confirmed_by_pharmacy` is set. -/
def rowConfirmPharmacy (did : String) (d : Delivery) : Delivery :=
  if d.id = did then { d with confirmed_by_pharmacy := true } else d

/-- The admin confirmation applied to the deliveries table. -/
def confirmDeliveryAdmin (did : String) (ds : List Delivery) : List Delivery :=
  ds.map (rowConfirmAdmin did)

/-- The pharmacy confirmation applied to the deliveries table. -/
def confirmDeliveryPharmacy (did : String) (ds : List Delivery) : List Delivery :=
  ds.map (rowConfirmPharmacy did)

/-- `fetchDeliveries` of the delivery dashboard: only rows whose
`delivery_agent_id` equals the signed-in agent are loaded. -/
def fetchDeliveries (agentId : String) (ds : List Delivery) : List Delivery :=
  ds.filter (fun d => d.delivery_agent_id = some agentId)

/-- The status transitions the delivery dashboard offers for a row:
`pending` shows only the Start Delivery button (target `in-transit`),
`in-transit` shows only Mark Delivered (target `delivered`), and a
`delivered` row shows no transition button. -/
def agentActions (d : Delivery) : List DeliveryStatus :=
  match d.status_delivery with
  | .pending => [.inTransit]
  | .inTransit => [.delivered]
  | .delivered => []

/-- Numeric position of a delivery status along the linear lifecycle. -/
def statusRank : DeliveryStatus → Nat
  | .pending => 0
  | .inTransit => 1
  | .delivered => 2

/-- The delivered-timestamp invariant of the spec: `delivered_at` is
non-null exactly on `delivered` rows. -/
def DeliveredInv (d : Delivery) : Prop :=
  d.delivered_at ≠ none ↔ d.status_delivery = .delivered

instance (d : Delivery) : Decidable (DeliveredInv d) := by
  unfold DeliveredInv; infer_instance

/-- The forward half of the delivered-timestamp invariant. -/
def DeliveredFwd (d : Delivery) : Prop :=
  d.status_delivery = .delivered → d.delivered_at ≠ none

instance (d : Delivery) : Decidable (DeliveredFwd d) := by
  unfold DeliveredFwd; infer_instance

/-- Role enum, including the `delivery_agent` role added by the
delivery-system extension. -/
inductive Role where
  | admin | pharmacy | customer | delivery_agent
  deriving Repr, DecidableEq

/-- `useUserRole` resolution: the `user_roles` query either fails or
returns the principal's role rows; `metadataRole` is the role recorded
in signup metadata. Any query failure (error result or thrown
exception) resolves to `customer`. A non-empty row set is resolved by
the priority chain admin > pharmacy > delivery_agent > customer. An
empty row set falls back to the metadata role (which the hook also
inserts into `user_roles` as a side effect), and to `customer` when
there is none. -/
def useUserRole (queryRoles : Except Unit (List Role)) (metadataRole : Option Role) :
    Role :=
  match queryRoles with
  | .error _ => .customer
  | .ok data =>
      if 0 < data.length then
        if Role.admin ∈ data then .admin
        else if Role.pharmacy ∈ data then .pharmacy
        else if Role.delivery_agent ∈ data then .delivery_agent
        else .customer
      else
        match metadataRole with
        | some m =>
            if m = .admin then .admin
            else if m = .pharmacy then .pharmacy
            else if m = .delivery_agent then .delivery_agent
            else .customer
        | none => .customer

/-- Pharmacy verification status enum (`verification_status`). -/
inductive VerificationStatus where
  | pending | approved | rejected
  deriving Repr, DecidableEq

/-- A `pharmacies` row: the fields the products row-level policy reads,
plus the verification status. -/
structure Pharmacy where
  id : String
  user_id : String
  verification_status : VerificationStatus
  deriving Repr, DecidableEq

/-- The row-level policy "Pharmacies can manage own products": the
mutation on a product row is permitted iff some `pharmacies` row has
the product's `pharmacy_id` and is owned by the requesting principal.
The predicate never reads `verification_status`. -/
def canManageOwnProducts (uid : String) (pharmacies : List Pharmacy)
    (productPharmacyId : String) : Bool :=
  pharmacies.any (fun p => p.id == productPharmacyId && p.user_id == uid)

/-- Example cart line from pharmacy `pA`, used to instantiate theorems. -/
def exItemA : CartItem :=
  { product_id := "prodA", name := "Med A", price := 500, quantity := 2,
    pharmacy_name := "Pharm A", pharmacy_id := "pA" }

/-- Example cart line from pharmacy `pB`. -/
def exItemB : CartItem :=
  { product_id := "prodB", name := "Med B", price := 300, quantity := 1,
    pharmacy_name := "Pharm B", pharmacy_id := "pB" }

/-- Example empty store state. -/
def dbEmpty : DB := { orders := [], order_items := [], products := [], nextId := 0 }

/-- Example delivery row: freshly created, unconfirmed, not delivered. -/
def exDelivery : Delivery :=
  { id := "d1", order_id := "o1", pharmacy_id := "pA", delivery_agent_id := some "g1",
    status_delivery := .pending, confirmed_by_admin := false,
    confirmed_by_pharmacy := false, delivered_at := none }

/-- C10: every cart operation preserves the invariant that the cart has
at most one line per `product_id` and every line has quantity ≥ 1;
`addToCart` of a product already in the cart increments that line's
quantity instead of adding a duplicate line, `addToCart` of a new
product appends a line with quantity 1, and `updateQuantity` with a
non-positive quantity removes the line entirely. -/
theorem cart_wellformedness_invariant
    (cart : List CartItem) (x : NewCartItem) (pid : String) (q : Int)
    (h : CartWF cart) :
    CartWF (addToCart x cart) ∧
    CartWF (updateQuantity pid q cart) ∧
    CartWF (removeFromCart pid cart) ∧
    ((∃ i ∈ cart, i.product_id = x.product_id) →
      (addToCart x cart).length = cart.length ∧
      ∀ i ∈ cart, i.product_id = x.product_id →
        { i with quantity := i.quantity + 1 } ∈ addToCart x cart) ∧
    ((∀ i ∈ cart, i.product_id ≠ x.product_id) →
      addToCart x cart =
        cart ++ [{ product_id := x.product_id, name := x.name, price := x.price,
                   quantity := 1, pharmacy_name := x.pharmacy_name,
                   pharmacy_id := x.pharmacy_id }]) ∧
    (q ≤ 0 →
      updateQuantity pid q cart = removeFromCart pid cart ∧
      ∀ i ∈ updateQuantity pid q cart, i.product_id ≠ pid) := by
  refine ⟨addToCart_wf h x, updateQuantity_wf h pid q, removeFromCart_wf h pid,
    ?_, ?_, ?_⟩
  · rintro ⟨j, hj, hjid⟩
    have hany : (cart.any fun item => item.product_id = x.product_id) = true := by
      simp only [List.any_eq_true, decide_eq_true_eq]
      exact ⟨j, hj, hjid⟩
    constructor
    · unfold addToCart
      rw [if_pos hany, List.length_map]
    · intro i hi hiid
      unfold addToCart
      rw [if_pos hany]
      exact List.mem_map.mpr ⟨i, hi, by rw [if_pos hiid]⟩
  · intro hnone
    have hany : (cart.any fun item => item.product_id = x.product_id) = false := by
      simp only [List.any_eq_false, decide_eq_true_eq]
      exact hnone
    unfold addToCart
    rw [if_neg (by simp [hany])]
  · intro hq0
    have hup : updateQuantity pid q cart = removeFromCart pid cart := by
      unfold updateQuantity
      rw [if_pos hq0]
    refine ⟨hup, ?_⟩
    intro i hi
    rw [hup] at hi
    have := List.of_mem_filter hi
    simpa using this

/-- Witness for C10 at a concrete well-formed cart. -/
theorem cart_wellformedness_invariant_witness :
    CartWF [exItemA] ∧ CartWF (addToCart
      { product_id := "prodB", name := "Med B", price := 300,
        pharmacy_name := "Pharm B", pharmacy_id := "pB" } [exItemA]) :=
  ⟨by decide, (cart_wellformedness_invariant [exItemA]
    { product_id := "prodB", name := "Med B", price := 300,
      pharmacy_name := "Pharm B", pharmacy_id := "pB" } "prodA" 2 (by decide)).1⟩

/-- C1: for a signed-in user, a non-empty cart and a non-blank delivery
address, `handleCheckout` creates exactly one pending order per
distinct `pharmacy_id` of the cart, each with `total_amount` equal to
the sum of `unit_price × quantity` over its own pharmacy's partition,
together with one order item per cart item of that partition carrying
the item's quantity, its cart price as `unit_price` and
`total_price = unit_price × quantity`; every order item of an order
stems from a cart item of that order's own pharmacy. -/
theorem checkout_partitions (uid addr notes : String) (items : List CartItem)
    (nid : Nat) (hne : items ≠ []) (haddr : strTrim addr ≠ "") :
    (handleCheckout (some uid) addr notes items nid).map (fun x => x.1.pharmacy_id) =
        dedupFirst (items.map (fun i => i.pharmacy_id)) ∧
    ((handleCheckout (some uid) addr notes items nid).map
        (fun x => x.1.pharmacy_id)).Nodup ∧
    (∀ p, p ∈ (handleCheckout (some uid) addr notes items nid).map
        (fun x => x.1.pharmacy_id) ↔ p ∈ items.map (fun i => i.pharmacy_id)) ∧
    (∀ x ∈ handleCheckout (some uid) addr notes items nid,
      x.1.status = .pending ∧
      x.1.customer_id = uid ∧
      x.1.delivery_address = addr ∧
      x.1.total_amount = orderTotal (itemsFor x.1.pharmacy_id items) ∧
      x.1.total_amount = (x.2.map (fun oi => oi.total_price)).sum ∧
      x.2 = (itemsFor x.1.pharmacy_id items).map (mkOrderItem x.1.id) ∧
      ∀ oi ∈ x.2, oi.order_id = x.1.id ∧
        oi.total_price = oi.unit_price * (oi.quantity : ℚ) ∧
        ∃ i ∈ items, i.pharmacy_id = x.1.pharmacy_id ∧ oi.product_id = i.product_id ∧
          oi.quantity = i.quantity ∧ oi.unit_price = i.price) := by
  have hempty : ¬(items.isEmpty = true) := by
    cases items with
    | nil => exact absurd rfl hne
    | cons hd tl => simp
  have hunf : handleCheckout (some uid) addr notes items nid =
      makeOrders uid addr notes items
        (dedupFirst (items.map (fun i => i.pharmacy_id))) nid := by
    simp only [handleCheckout]
    rw [if_neg hempty, if_neg haddr]
  refine ⟨?_, ?_, ?_, ?_⟩
  · rw [hunf, makeOrders_keys]
  · rw [hunf, makeOrders_keys]
    exact dedupFirst_nodup _
  · intro p
    rw [hunf, makeOrders_keys]
    exact mem_dedupFirst
  · intro x hx
    rw [hunf] at hx
    obtain ⟨hst, hcust, haddr', htot, hitems⟩ :=
      makeOrders_mem uid addr notes items _ nid x hx
    refine ⟨hst, hcust, haddr', htot, ?_, hitems, ?_⟩
    · rw [hitems, htot]
      exact orderTotal_eq_sum_total_price _ _ _
    · intro oi hoi
      rw [hitems] at hoi
      rcases List.mem_map.mp hoi with ⟨i, hifilter, rfl⟩
      have hmem := List.mem_filter.mp hifilter
      refine ⟨rfl, rfl, i, hmem.1, ?_, rfl, rfl, rfl⟩
      simpa using hmem.2

/-- Witness for C1: a two-pharmacy cart splits into orders for exactly
the two pharmacies. -/
theorem checkout_partitions_witness :
    (([exItemA, exItemB] : List CartItem) ≠ []) ∧ (strTrim "12 Road" ≠ "") ∧
    (handleCheckout (some "u1") "12 Road" "" [exItemA, exItemB] 0).map
        (fun x => x.1.pharmacy_id) =
      dedupFirst ([exItemA, exItemB].map (fun i => i.pharmacy_id)) := by
  have h := checkout_partitions "u1" "12 Road" "" [exItemA, exItemB] 0
    (by decide) (by decide)
  exact ⟨by decide, by decide, h.1⟩

/-- C8: checkout never writes the `products` table — the products (and
so every `stock_quantity`) are identical before and after order
creation, and the orders created do not depend on the product rows at
all, so no out-of-stock rejection can occur at order time. -/
theorem checkout_preserves_products (user : Option String) (addr notes : String)
    (items : List CartItem) (db : DB) (ps : List Product) :
    (handleCheckoutDB user addr notes items db).products = db.products ∧
    (handleCheckoutDB user addr notes items { db with products := ps }).orders =
      (handleCheckoutDB user addr notes items db).orders ∧
    (handleCheckoutDB user addr notes items { db with products := ps }).order_items =
      (handleCheckoutDB user addr notes items db).order_items :=
  ⟨rfl, rfl, rfl⟩

/-- C9 counterexample: with one cart item, when the order insert
succeeds (call 0) and the order-items insert fails (call 1), the order
row for that partition remains in the store while no order item exists —
the header and its items are not created atomically. -/
theorem checkout_atomicity_counterexample :
    ((fun k : Nat => k == 0) 0 = true) ∧ ((fun k : Nat => k == 0) 1 = false) ∧
    (runCheckout (some "u1") "A" "" [exItemA] (fun k => k == 0) dbEmpty).orders.length
      = 1 ∧
    (runCheckout (some "u1") "A" "" [exItemA] (fun k => k == 0) dbEmpty).order_items
      = [] := by
  exact ⟨rfl, rfl, rfl, rfl⟩

/-- C9 amended: order creation is not atomic per partition — the header
and the items are two independent inserts; once performed, writes are
never rolled back (the resulting tables always extend the initial
ones); if the items insert of a partition fails, that partition's order
header remains with no order items and processing stops; if the header
insert fails, the state is the one left by the earlier partitions. -/
theorem checkout_no_rollback (uid addr notes : String) (items : List CartItem)
    (ok : Nat → Bool) (pids : List String) (db : DB) (k : Nat) (p : String)
    (rest : List String) :
    (∃ newOrders newItems,
      (runCheckoutAux uid addr notes items ok pids db k).orders =
        db.orders ++ newOrders ∧
      (runCheckoutAux uid addr notes items ok pids db k).order_items =
        db.order_items ++ newItems) ∧
    (ok k = true → ok (k + 1) = false →
      (runCheckoutAux uid addr notes items ok (p :: rest) db k).orders =
        db.orders ++ [mkOrder db.nextId uid p addr notes items] ∧
      (runCheckoutAux uid addr notes items ok (p :: rest) db k).order_items =
        db.order_items) ∧
    (ok k = false →
      runCheckoutAux uid addr notes items ok (p :: rest) db k = db) := by
  refine ⟨?_, ?_, ?_⟩
  · induction pids generalizing db k with
    | nil => exact ⟨[], [], by simp [runCheckoutAux], by simp [runCheckoutAux]⟩
    | cons q qs ih =>
        by_cases hk : ok k = true
        · by_cases hk1 : ok (k + 1) = true
          · obtain ⟨no, ni, hno, hni⟩ := ih _ (k + 2)
            refine ⟨[mkOrder db.nextId uid q addr notes items] ++ no,
              (itemsFor q items).map (mkOrderItem db.nextId) ++ ni, ?_, ?_⟩
            · simp only [runCheckoutAux, hk, hk1, if_true]
              rw [hno]
              simp [List.append_assoc]
            · simp only [runCheckoutAux, hk, hk1, if_true]
              rw [hni]
              simp [List.append_assoc, mkOrder]
          · refine ⟨[mkOrder db.nextId uid q addr notes items], [], ?_, ?_⟩
            · simp only [runCheckoutAux, hk, if_true]
              rw [if_neg hk1]
            · simp only [runCheckoutAux, hk, if_true]
              rw [if_neg hk1]
              simp
        · refine ⟨[], [], ?_, ?_⟩
          · simp only [runCheckoutAux]
            rw [if_neg hk]
            simp
          · simp only [runCheckoutAux]
            rw [if_neg hk]
            simp
  · intro hk hk1
    constructor
    · simp only [runCheckoutAux, hk, if_true]
      rw [if_neg (by simp [hk1])]
    · simp only [runCheckoutAux, hk, if_true]
      rw [if_neg (by simp [hk1])]
  · intro hk
    simp only [runCheckoutAux]
    rw [if_neg (by simp [hk])]

/-- Witness for the amended C9 at a concrete one-partition run whose
order-items insert fails: the orphaned header remains. -/
theorem checkout_no_rollback_witness :
    ((fun k : Nat => k == 0) 0 = true) ∧ ((fun k : Nat => k == 0) 1 = false) ∧
    (runCheckoutAux "u1" "A" "" [exItemA] (fun k => k == 0) ["pA"] dbEmpty 0).orders =
      dbEmpty.orders ++ [mkOrder dbEmpty.nextId "u1" "pA" "A" "" [exItemA]] ∧
    (runCheckoutAux "u1" "A" "" [exItemA] (fun k => k == 0) ["pA"] dbEmpty 0).order_items =
      dbEmpty.order_items := by
  have h := (checkout_no_rollback "u1" "A" "" [exItemA] (fun k => k == 0) ["pA"]
    dbEmpty 0 "pA" []).2.1 rfl rfl
  exact ⟨rfl, rfl, h.1, h.2⟩

/-- C2 counterexample: a freshly created delivery satisfies the
delivered-timestamp invariant, updating it to `delivered` stamps
`delivered_at`, but a subsequent update back to `pending` keeps the
old timestamp, producing a reachable row with `status_delivery =
pending` and a non-null `delivered_at` — the biconditional fails. -/
theorem delivered_at_iff_counterexample :
    DeliveredInv exDelivery ∧
    updateDeliveryStatus "d1" .delivered 5 [exDelivery] =
      [{ exDelivery with status_delivery := .delivered, delivered_at := some 5 }] ∧
    DeliveredInv
      { exDelivery with status_delivery := .delivered, delivered_at := some 5 } ∧
    updateDeliveryStatus "d1" .pending 7
        [{ exDelivery with status_delivery := .delivered, delivered_at := some 5 }] =
      [{ exDelivery with status_delivery := .pending, delivered_at := some 5 }] ∧
    ¬ DeliveredInv
      { exDelivery with status_delivery := .pending, delivered_at := some 5 } := by
  exact ⟨by decide, by decide, by decide, by decide, by decide⟩

/-- C2 amended: setting the status to `delivered` stamps `delivered_at`
with the current time; setting it to `pending` or `in-transit` leaves
`delivered_at` unchanged (not cleared). Hence only the forward half of
the invariant is preserved by the status-update operations: every row
with `status_delivery = delivered` has a non-null `delivered_at`,
while a delivered row later reset keeps its old timestamp. -/
theorem delivered_at_forward_invariant (did : String) (st : DeliveryStatus)
    (now : Nat) (ds : List Delivery) (d0 : Delivery)
    (h : ∀ d ∈ ds, DeliveredFwd d) :
    (∀ d ∈ updateDeliveryStatus did st now ds, DeliveredFwd d) ∧
    (st = .delivered → (updateDeliveryRow d0 st now).delivered_at = some now) ∧
    (st ≠ .delivered → (updateDeliveryRow d0 st now).delivered_at = d0.delivered_at) ∧
    (updateDeliveryRow d0 st now).status_delivery = st ∧
    (d0.id ≠ did → d0 ∈ ds → d0 ∈ updateDeliveryStatus did st now ds) := by
  refine ⟨?_, ?_, ?_, rfl, ?_⟩
  · intro d hd
    rcases List.mem_map.mp hd with ⟨y, hy, rfl⟩
    by_cases hid : y.id = did
    · rw [if_pos hid]
      intro hdel
      have : st = .delivered := hdel
      simp [updateDeliveryRow, this]
    · rw [if_neg hid]
      exact h y hy
  · intro hdel
    simp [updateDeliveryRow, hdel]
  · intro hdel
    simp [updateDeliveryRow, hdel]
  · intro hid hmem
    unfold updateDeliveryStatus
    exact List.mem_map.mpr ⟨d0, hmem, by rw [if_neg hid]⟩

/-- Witness for the amended C2 at a concrete table. -/
theorem delivered_at_forward_invariant_witness :
    (∀ d ∈ [exDelivery], DeliveredFwd d) ∧
    (∀ d ∈ updateDeliveryStatus "d1" .delivered 5 [exDelivery], DeliveredFwd d) := by
  have h := delivered_at_forward_invariant "d1" .delivered 5 [exDelivery] exDelivery
    (by decide)
  exact ⟨by decide, h.1⟩

/-- C3: the admin's confirmation sets only `confirmed_by_admin` and the
pharmacy's only `confirmed_by_pharmacy`; both leave `status_delivery`,
`delivered_at`, `delivery_agent_id` and the other flag untouched, and
rows with a different id are unchanged entirely. Conversely, the
status-update operation neither reads nor changes the flags: its
resulting status is the requested one whatever the flags are, so a
delivery reaches `delivered` with both confirmations still false. -/
theorem confirmation_flags_decoupled (did : String) (d : Delivery)
    (st : DeliveryStatus) (now : Nat) (a b : Bool) :
    (rowConfirmAdmin did d).status_delivery = d.status_delivery ∧
    (rowConfirmAdmin did d).delivered_at = d.delivered_at ∧
    (rowConfirmAdmin did d).delivery_agent_id = d.delivery_agent_id ∧
    (rowConfirmAdmin did d).confirmed_by_pharmacy = d.confirmed_by_pharmacy ∧
    (d.id ≠ did → rowConfirmAdmin did d = d) ∧
    (rowConfirmPharmacy did d).status_delivery = d.status_delivery ∧
    (rowConfirmPharmacy did d).delivered_at = d.delivered_at ∧
    (rowConfirmPharmacy did d).delivery_agent_id = d.delivery_agent_id ∧
    (rowConfirmPharmacy did d).confirmed_by_admin = d.confirmed_by_admin ∧
    (d.id ≠ did → rowConfirmPharmacy did d = d) ∧
    (updateDeliveryRow
      { d with confirmed_by_admin := a, confirmed_by_pharmacy := b } st
      now).status_delivery = st ∧
    (updateDeliveryRow
      { d with confirmed_by_admin := a, confirmed_by_pharmacy := b } st
      now).confirmed_by_admin = a ∧
    (updateDeliveryRow
      { d with confirmed_by_admin := a, confirmed_by_pharmacy := b } st
      now).confirmed_by_pharmacy = b ∧
    (updateDeliveryRow (updateDeliveryRow exDelivery .inTransit 3) .delivered
      5).status_delivery = .delivered ∧
    (updateDeliveryRow (updateDeliveryRow exDelivery .inTransit 3) .delivered
      5).confirmed_by_admin = false ∧
    (updateDeliveryRow (updateDeliveryRow exDelivery .inTransit 3) .delivered
      5).confirmed_by_pharmacy = false ∧
    (updateDeliveryRow (updateDeliveryRow exDelivery .inTransit 3) .delivered
      5).delivered_at = some 5 := by
  unfold rowConfirmAdmin rowConfirmPharmacy
  refine ⟨?_, ?_, ?_, ?_, ?_, ?_, ?_, ?_, ?_, ?_,
    rfl, rfl, rfl, by decide, by decide, by decide, by decide⟩ <;>
    first
      | (split <;> rfl)
      | (intro hid; rw [if_neg hid])

/-- Witness for C3: confirming a different delivery id leaves the row
untouched, at a concrete row. -/
theorem confirmation_flags_decoupled_witness :
    (exDelivery.id ≠ "zz") ∧ rowConfirmAdmin "zz" exDelivery = exDelivery := by
  have h := confirmation_flags_decoupled "zz" exDelivery .delivered 5 true false
  exact ⟨by decide, h.2.2.2.2.1 (by decide)⟩

/-- C4: every status transition the delivery dashboard offers moves one
step forward along the linear lifecycle — a `pending` row can only go
to `in-transit` and an `in-transit` row only to `delivered` (which
stamps `delivered_at` with the current time); no reverse transition is
offered, and the dashboard only loads (hence only operates on) rows
whose `delivery_agent_id` is the signed-in agent. -/
theorem agent_transitions_linear (d : Delivery) (st : DeliveryStatus) (now : Nat)
    (agent : String) (ds : List Delivery) (hst : st ∈ agentActions d) :
    ((d.status_delivery = .pending ∧ st = .inTransit) ∨
      (d.status_delivery = .inTransit ∧ st = .delivered)) ∧
    statusRank st = statusRank d.status_delivery + 1 ∧
    (st = .delivered → (updateDeliveryRow d st now).delivered_at = some now) ∧
    (∀ d' ∈ fetchDeliveries agent ds, d'.delivery_agent_id = some agent) := by
  have hcase : (d.status_delivery = .pending ∧ st = .inTransit) ∨
      (d.status_delivery = .inTransit ∧ st = .delivered) := by
    unfold agentActions at hst
    rcases hd : d.status_delivery with _ | _ | _ <;> rw [hd] at hst <;>
      simp only [List.mem_singleton, List.not_mem_nil] at hst
    · exact Or.inl ⟨rfl, hst⟩
    · exact Or.inr ⟨rfl, hst⟩
  refine ⟨hcase, ?_, ?_, ?_⟩
  · rcases hcase with ⟨h1, h2⟩ | ⟨h1, h2⟩ <;> rw [h1, h2] <;> rfl
  · intro hdel
    simp [updateDeliveryRow, hdel]
  · intro d' hd'
    have := List.mem_filter.mp hd'
    simpa using this.2

/-- Witness for C4 at a concrete pending delivery. -/
theorem agent_transitions_linear_witness :
    DeliveryStatus.inTransit ∈ agentActions exDelivery ∧
    statusRank .inTransit = statusRank exDelivery.status_delivery + 1 := by
  have h := agent_transitions_linear exDelivery .inTransit 3 "g1" [exDelivery]
    (by decide)
  exact ⟨by decide, h.2.1⟩

/-- C5: with a non-empty set of role rows, `useUserRole` resolves by the
priority order admin > pharmacy > delivery_agent > customer; with no
role rows and no signup-metadata role it resolves to `customer`. -/
theorem role_priority (data : List Role) (meta : Option Role) (h : data ≠ []) :
    useUserRole (.ok data) meta =
      (if Role.admin ∈ data then Role.admin
       else if Role.pharmacy ∈ data then Role.pharmacy
       else if Role.delivery_agent ∈ data then Role.delivery_agent
       else Role.customer) ∧
    useUserRole (.ok []) none = Role.customer := by
  constructor
  · simp only [useUserRole]
    rw [if_pos (List.length_pos.mpr h)]
  · rfl

/-- Witness for C5: a principal holding both customer and
delivery_agent roles resolves to delivery_agent. -/
theorem role_priority_witness :
    ([Role.customer, Role.delivery_agent] ≠ ([] : List Role)) ∧
    useUserRole (.ok [Role.customer, Role.delivery_agent]) none =
      Role.delivery_agent := by
  have h := role_priority [Role.customer, Role.delivery_agent] none (by decide)
  refine ⟨by decide, ?_⟩
  rw [h.1]
  decide

/-- C6: any failure of the `user_roles` query — an error result or a
thrown exception, both landing in the error branch — resolves the
effective role to `customer`; the hook's result type has no error
state, so no failure is propagated. -/
theorem role_fail_open (meta : Option Role) (e : Unit) :
    useUserRole (.error e) meta = Role.customer := rfl

/-- C7: the products row-level policy permits a mutation exactly when a
`pharmacies` row matches the product's `pharmacy_id` and is owned by
the requesting principal, and its verdict is invariant under arbitrary
changes of every pharmacy's `verification_status` — two runs differing
only in verification statuses produce the same access decision. -/
theorem product_policy_ignores_verification (uid productPharmacyId : String)
    (ps : List Pharmacy) (f : Pharmacy → VerificationStatus) :
    canManageOwnProducts uid
        (ps.map (fun p => { p with verification_status := f p }))
        productPharmacyId =
      canManageOwnProducts uid ps productPharmacyId ∧
    (canManageOwnProducts uid ps productPharmacyId = true ↔
      ∃ p ∈ ps, p.id = productPharmacyId ∧ p.user_id = uid) := by
  constructor
  · unfold canManageOwnProducts
    rw [List.any_map]
    rfl
  · simp [canManageOwnProducts, List.any_eq_true, Bool.and_eq_true, beq_iff_eq]

end MedsMarket
